import Mathlib

/-!
Shallow embedding of the wa-kupro-backend auction logic.

The definitions below are transcribed from the repository's source:
  * `src/models/Product.js` — the Product schema, its pre-save hook and its
    instance methods (canBid, placeBid, isBiddingEnded, reserveForWinner).
  * `src/products.js` and `src/unnamed/part_004` — the Express routes for
    placing a bid, updating a product, deleting a product and processing
    ended biddings.
  * `src/unnamed/part_000` — the scheduler (processExpiredBiddings,
    notifyWinners).

Modelling conventions: JS numbers carrying money are rationals (ℚ);
Date values are integer milliseconds (Int); the wall clock read by
`new Date()` is an explicit `now : Int` argument; a thrown JS Error is the
`thrown` constructor of `JsResult` (or a structured error type) carrying the
message; the Mongo store is a `List Product`, and store/validation failures
of `document.save()` are modelled by an explicit oracle
`saveErr : Product → Option String` (`some msg` meaning the write throws
`msg`).  JS truthiness is modelled where the source relies on it: a string
option is truthy when present and nonempty, a Date option is truthy when
present, a number option is truthy when present and nonzero.
-/

namespace KuPro

/-- One entry of bidHistory (schema lines 105-125 of Product.js):
bidder, bidderEmail, amount, timestamp. -/
structure Bid where
  bidder : String
  bidderEmail : String
  amount : ℚ
  timestamp : Int
  deriving DecidableEq

/-- The Product/Auction record, transcribed from the productSchema fields of
`src/models/Product.js` that the bidding logic touches.  Listing-only fields
(category, image, description, color) play no role in any claim and are
omitted; `name` is kept because the batch summaries report it.  The
`biddingStatus` field is a plain string in every comparison the methods
perform (the schema's enum is ["active", "ended", "sold", "cancelled"] and
is only enforced by save-time validation). -/
structure Product where
  name : String
  currentPrice : ℚ
  originalPrice : Option ℚ
  stock : Int
  isBidding : Bool
  biddingEndTime : Option Int
  biddingDurationDays : Option Int
  bestBidder : Option String
  bestBidderEmail : Option String
  bidHistory : List Bid
  biddingStatus : String
  winnerNotified : Bool
  reservedForWinner : Bool
  minimumBidIncrement : ℚ
  userId : String
  userEmail : String
  createdAt : Int
  updatedAt : Int
  deriving DecidableEq

/-- Outcome of a JS computation that may throw: `thrown` carries the
Error message. -/
inductive JsResult (α : Type) where
  | thrown (msg : String)
  | value (val : α)
  deriving DecidableEq

/-- Whether a `JsResult` is a thrown error. -/
def isThrown {α : Type} : JsResult α → Bool
  | .thrown _ => true
  | .value _ => false

/-- The message of a thrown `JsResult` (empty for a value). -/
def thrownMsg {α : Type} : JsResult α → String
  | .thrown e => e
  | .value _ => ""

/-- JS truthiness of an optional string: null and the empty string are
falsy. -/
def strTruthy : Option String → Bool
  | none => false
  | some s => s != ""

/-- The comparison `endTime && new Date() >= endTime`: false when the end
time is null, otherwise `now ≥ t`.  The same test models the Mongo query
clause `biddingEndTime: {$lte: now}`, which a null end time never matches. -/
def dateReached (now : Int) : Option Int → Bool
  | none => false
  | some t => decide (t ≤ now)

/-- Instance method canBid (Product.js 245-250): bidding is open iff the
record is auction-enabled with positive stock, its status is "active", and
the end timestamp (when set) has not been reached. -/
def canBid (now : Int) (p : Product) : Bool :=
  if !p.isBidding || decide (p.stock ≤ 0) then false
  else if p.biddingStatus != "active" then false
  else if dateReached now p.biddingEndTime then false
  else true

/-- The two throws of placeBid: the generic unavailability rejection
("Bidding is not available for this product") and the low-bid rejection,
whose message "Bid must be at least <minimum>€" reports the minimum
acceptable amount carried here as the payload. -/
inductive BidError where
  | notAvailable
  | tooLow (minimum : ℚ)
  deriving DecidableEq

/-- Outcome of the placeBid instance method. -/
inductive BidResult where
  | failure (err : BidError)
  | success (updated : Product)
  deriving DecidableEq

/-- Instance method placeBid (Product.js 253-277).  The JS method mutates
`this` only after both guards have passed, so a thrown guard leaves the
document untouched; here the guards precede the record update for the same
reason.  On success it appends the bid to bidHistory, sets
`currentPrice = amount` and records the best bidder name and email. -/
def placeBid (now : Int) (p : Product) (bidder bidderEmail : String) (amount : ℚ) :
    BidResult :=
  if !canBid now p then .failure .notAvailable
  else if amount < p.currentPrice + p.minimumBidIncrement then
    .failure (.tooLow (p.currentPrice + p.minimumBidIncrement))
  else
    .success { p with
      bidHistory := p.bidHistory ++ [⟨bidder, bidderEmail, amount, now⟩],
      currentPrice := amount,
      bestBidder := some bidder,
      bestBidderEmail := some bidderEmail }

/-- The record as the store sees it after a placeBid attempt: the new state
on success, the unchanged document when the method threw (the throw happens
before any field assignment in the source). -/
def placeBidResult (now : Int) (p : Product) (bidder bidderEmail : String) (amount : ℚ) :
    Product :=
  match placeBid now p bidder bidderEmail amount with
  | .success q => q
  | .failure _ => p

/-- Sequential application of a list of bid attempts
(name, email, amount), each against the record left by the previous one. -/
def applyBids (now : Int) : List (String × String × ℚ) → Product → Product
  | [], p => p
  | b :: rest, p => applyBids now rest (placeBidResult now p b.1 b.2.1 b.2.2)

/-- Instance method isBiddingEnded (Product.js 280-286): false for a
non-auction record; otherwise true iff the status is "ended" or "sold" or
the end timestamp has been reached. -/
def isBiddingEnded (now : Int) (p : Product) : Bool :=
  if !p.isBidding then false
  else if p.biddingStatus == "ended" || p.biddingStatus == "sold" then true
  else if dateReached now p.biddingEndTime then true
  else false

/-- The predicate the specification asserts for isBiddingEnded
(spec §4.2: status in the set ended/sold/reserved, or auction-enabled and
expired), written from the specification's words for comparison with the
source's isBiddingEnded. -/
def specIsBiddingEnded (now : Int) (p : Product) : Bool :=
  (p.biddingStatus == "ended" || p.biddingStatus == "sold"
    || p.biddingStatus == "reserved")
  || (p.isBidding && dateReached now p.biddingEndTime)

/-- Instance method reserveForWinner (Product.js 302-310): throws unless the
bidding has ended and a best bidder exists; otherwise sets
`reservedForWinner = true` and `biddingStatus = "ended"`. -/
def reserveForWinner (now : Int) (p : Product) : JsResult Product :=
  if !isBiddingEnded now p || !strTruthy p.bestBidder then
    .thrown ("Cannot reserve product - bidding not ended or no winner")
  else
    .value { p with reservedForWinner := true, biddingStatus := "ended" }

/-- First step of the pre-save hook (Product.js 186-191): auto-set the
bidding end time from the duration when bidding is enabled, a nonzero
duration is present, and no end time is set yet.  `setDate(getDate()+d)` is
modelled as adding d days of milliseconds. -/
def presaveAutoEnd (now : Int) (p : Product) : Product :=
  match p.biddingDurationDays with
  | some d =>
    if p.isBidding && (d != 0) && !p.biddingEndTime.isSome then
      { p with biddingEndTime := some (now + d * 86400000) }
    else p
  | none => p

/-- Second step of the pre-save hook (Product.js 193-205): when bidding is
enabled and the end time has been reached, an "active" record transitions to
"ended", and gains `reservedForWinner = true` when a best bidder exists. -/
def presaveExpire (now : Int) (p : Product) : Product :=
  if p.isBidding && dateReached now p.biddingEndTime then
    if p.biddingStatus == "active" then
      if strTruthy p.bestBidder then
        { p with biddingStatus := "ended", reservedForWinner := true }
      else
        { p with biddingStatus := "ended" }
    else p
  else p

/-- The pre-save middleware of productSchema (Product.js 183-208), the
Lifecycle Resolver's resolve step: stamp updatedAt, auto-set the end time,
then apply the expiry transition.  Every `document.save()` runs it. -/
def resolve (now : Int) (p : Product) : Product :=
  presaveExpire now (presaveAutoEnd now { p with updatedAt := now })

/-- The fields the idempotence claim ranges over: biddingStatus,
reservedForWinner, bestBidder, currentPrice and bidHistory. -/
def resolvedView (p : Product) : String × Bool × Option String × ℚ × List Bid :=
  (p.biddingStatus, p.reservedForWinner, p.bestBidder, p.currentPrice, p.bidHistory)

/-- The Notification Stage query (part_000, notifyWinners, lines 154-157):
records with `biddingStatus == "reserved"` and `winnerNotified == false`. -/
def notifySelects (db : List Product) : List Product :=
  db.filter (fun p => p.biddingStatus == "reserved" && !p.winnerNotified)

/-- The per-record effect of the notification sweep: set
`winnerNotified = true` (the external notify side effect is a log line in
the source). -/
def notifyStep (p : Product) : Product :=
  { p with winnerNotified := true }

/-- The notifyWinners sweep (part_000, lines 152-180): every record the
query selects is flagged notified and saved (the save runs the pre-save
hook); the sweep reports how many records it notified. -/
def notifyWinners (now : Int) (db : List Product) : List Product × Nat :=
  (db.map (fun p =>
      if p.biddingStatus == "reserved" && !p.winnerNotified then
        resolve now (notifyStep p)
      else p),
   (notifySelects db).length)

/-- The scheduler's expired-bidding query (part_000, lines 20-23):
`biddingStatus == "active"` and `biddingEndTime <= now` (no isBidding
clause). -/
def isExpiredActive (now : Int) (p : Product) : Bool :=
  p.biddingStatus == "active" && dateReached now p.biddingEndTime

/-- Static method findEndedBiddings (Product.js 328-334):
`isBidding: true`, `biddingStatus: "active"`, `biddingEndTime <= now`. -/
def findEndedBiddings (now : Int) (db : List Product) : List Product :=
  db.filter (fun p =>
    p.isBidding && p.biddingStatus == "active" && dateReached now p.biddingEndTime)

/-- A processed-winner entry of the scheduler's summary (part_000, lines
43-51): product name, winner name/email, winning bid, original price and
bid count (the opaque productId is omitted). -/
structure WinnerEntry where
  productName : String
  winner : Option String
  winnerEmail : Option String
  winningBid : ℚ
  originalPrice : Option ℚ
  bidCount : Nat
  deriving DecidableEq

/-- A failed-record entry of the scheduler's summary (part_000, lines
65-69): product name and the caught error message. -/
structure FailureEntry where
  productName : String
  error : String
  deriving DecidableEq

/-- The scheduler's summary: the processedBiddings and failedBiddings lists
(their lengths are the reported processed/failed counts). -/
structure SettleSummary where
  processed : List WinnerEntry
  failed : List FailureEntry
  deriving DecidableEq

/-- Per-record settlement work shared by the scheduler loop (part_000,
lines 30-71) and the process-ended route loop (products.js 679-694): when a
best bidder exists, reserveForWinner then save; otherwise set the status to
"ended" and save.  A throw of reserveForWinner or of the store write
(oracle `saveErr`) surfaces as `thrown`; a successful save persists the
record with the pre-save hook applied. -/
def settleRecord (now : Int) (saveErr : Product → Option String) (p : Product) :
    JsResult Product :=
  if strTruthy p.bestBidder then
    match reserveForWinner now p with
    | .thrown e => .thrown e
    | .value q =>
      match saveErr q with
      | some e => .thrown e
      | none => .value (resolve now q)
  else
    let q : Product := { p with biddingStatus := "ended" }
    match saveErr q with
    | some e => .thrown e
    | none => .value (resolve now q)

/-- The summary entry the scheduler pushes for a reserved winner, built from
the mutated document. -/
def winnerEntryOf (q : Product) : WinnerEntry :=
  { productName := q.name
    winner := q.bestBidder
    winnerEmail := q.bestBidderEmail
    winningBid := q.currentPrice
    originalPrice := q.originalPrice
    bidCount := q.bidHistory.length }

/-- The entry a record would contribute to the processed list, evaluated
from its own settlement outcome alone. -/
def settledWinnerEntry (now : Int) (saveErr : Product → Option String) (p : Product) :
    WinnerEntry :=
  match settleRecord now saveErr p with
  | .value q => winnerEntryOf q
  | .thrown _ => winnerEntryOf p

/-- The scheduler's processExpiredBiddings (part_000, lines 14-104),
written as structural recursion over the store in iteration order.  Each
record of the expired set is processed inside its own try/catch: a throw is
recorded in the failed list and the loop continues; a reserved winner is
recorded in the processed list; a no-bid record is just marked ended.  The
final store and both summary lists are returned; the function is total, so
no per-record error ever reaches the caller. -/
def processExpiredBiddings (now : Int) (saveErr : Product → Option String) :
    List Product → SettleSummary × List Product
  | [] => ({ processed := [], failed := [] }, [])
  | p :: rest =>
    let r := processExpiredBiddings now saveErr rest
    if isExpiredActive now p then
      match settleRecord now saveErr p with
      | .thrown e =>
        ({ processed := r.1.processed, failed := ⟨p.name, e⟩ :: r.1.failed }, p :: r.2)
      | .value q =>
        (if strTruthy p.bestBidder then
          { processed := winnerEntryOf q :: r.1.processed, failed := r.1.failed }
         else r.1,
         q :: r.2)
    else (r.1, p :: r.2)

/-- A processed entry of the process-ended route's response (products.js
683-689): product name, winner name/email, winning bid. -/
structure RouteEntry where
  productName : String
  winner : Option String
  winnerEmail : Option String
  winningBid : ℚ
  deriving DecidableEq

/-- The for-loop of the process-ended route (products.js 679-694).  Unlike
the scheduler there is no per-record catch: the first per-record throw
aborts the loop and propagates (the route's outer catch then answers 500
with that single message and no failure list). -/
def processEndedLoop (now : Int) (saveErr : Product → Option String) :
    List Product → JsResult (List RouteEntry)
  | [] => .value []
  | p :: rest =>
    match settleRecord now saveErr p with
    | .thrown e => .thrown e
    | .value q =>
      match processEndedLoop now saveErr rest with
      | .thrown e => .thrown e
      | .value acc =>
        .value ((if strTruthy p.bestBidder then
          [⟨q.name, q.bestBidder, q.bestBidderEmail, q.currentPrice⟩] else []) ++ acc)

/-- The process-ended route (products.js 674-707): run the loop over
findEndedBiddings. -/
def processEndedRoute (now : Int) (saveErr : Product → Option String)
    (db : List Product) : JsResult (List RouteEntry) :=
  processEndedLoop now saveErr (findEndedBiddings now db)

/-- The JS `trim()`: strip leading and trailing whitespace. -/
def jsTrim (s : String) : String :=
  String.mk (((s.data.dropWhile Char.isWhitespace).reverse.dropWhile
    Char.isWhitespace).reverse)

/-- Whether a string contains no whitespace characters. -/
def noWhitespace (s : String) : Bool :=
  s.data.all (fun c => !c.isWhitespace)

/-- The email test of the bid route, the regex ^\S+@\S+\.\S+$: the string
has no whitespace and contains an at-sign with at least one character
before it, followed at distance at least two by a dot with at least one
character after it. -/
def emailOk (s : String) : Bool :=
  let cs := s.data
  noWhitespace s &&
  ((List.range cs.length).any (fun i =>
    decide (1 ≤ i) && (cs.get? i == some ('@')) &&
    ((List.range cs.length).any (fun j =>
      (cs.get? j == some ('.')) && decide (i + 2 ≤ j) && decide (j + 2 ≤ cs.length)))))

/-- The input validation of the bid route (products.js 334-360): a positive
amount, a nonempty trimmed bidder name, a nonempty trimmed bidder email
matching the email regex. -/
def bidValidationOk (bidder bidderEmail : String) (amount : ℚ) : Bool :=
  decide (0 < amount) && jsTrim bidder != "" && jsTrim bidderEmail != ""
    && emailOk bidderEmail

/-- The `timeRemaining && timeRemaining.expired` test of the bid route: the
timeRemaining virtual is null unless the record is auction-enabled with an
end time, and reports expired iff the remaining time is not positive. -/
def timeRemainingExpired (now : Int) (p : Product) : Bool :=
  p.isBidding && dateReached now p.biddingEndTime

/-- The distinct responses of the bid route (products.js 328-420):
input-validation failure, self-bid rejection, closed-auction rejection,
not-biddable rejection, the low-bid rejection forwarded from placeBid with
its reported minimum, or success with the saved record. -/
inductive BidRouteOutcome where
  | invalidInput
  | selfBidForbidden
  | auctionClosed
  | notBiddable
  | bidRejected (minimum : ℚ)
  | accepted (updated : Product)
  deriving DecidableEq

/-- The bid route handler (products.js 328-420) on a found product, in
source order: input validation; then the owner self-bid check against the
untrimmed email; then the canBid check, answered as closed when the
timeRemaining virtual reports expired and as not-biddable otherwise; then
the model's placeBid with trimmed inputs, whose low-bid throw is answered
as a 400 carrying the reported minimum, and whose success is saved (running
the pre-save hook). -/
def routeBid (now : Int) (p : Product) (bidder bidderEmail : String) (amount : ℚ) :
    BidRouteOutcome :=
  if !bidValidationOk bidder bidderEmail amount then .invalidInput
  else if p.userEmail == bidderEmail then .selfBidForbidden
  else if !canBid now p then
    (if timeRemainingExpired now p then .auctionClosed else .notBiddable)
  else
    match placeBid now p (jsTrim bidder) (jsTrim bidderEmail) amount with
    | .failure .notAvailable => .notBiddable
    | .failure (.tooLow m) => .bidRejected m
    | .success q => .accepted (resolve now q)

/-- An arbitrary JSON patch body of the update routes, restricted by
Mongoose strict mode to schema paths: one optional assignment per field
(for Option-typed fields the assigned value may itself be null). -/
structure UpdatePayload where
  name : Option String := none
  currentPrice : Option ℚ := none
  originalPrice : Option (Option ℚ) := none
  stock : Option Int := none
  isBidding : Option Bool := none
  biddingEndTime : Option (Option Int) := none
  biddingDurationDays : Option (Option Int) := none
  bestBidder : Option (Option String) := none
  bestBidderEmail : Option (Option String) := none
  bidHistory : Option (List Bid) := none
  biddingStatus : Option String := none
  winnerNotified : Option Bool := none
  reservedForWinner : Option Bool := none
  minimumBidIncrement : Option ℚ := none
  userId : Option String := none
  userEmail : Option String := none
  createdAt : Option Int := none
  deriving DecidableEq

/-- Apply one optional patch assignment. -/
def optSet {α : Type} (patch : Option α) (old : α) : α :=
  patch.getD old

/-- Apply one optional patch assignment to an Option-typed field. -/
def optSetOpt {α : Type} (patch : Option (Option α)) (old : Option α) : Option α :=
  match patch with
  | some v => v
  | none => old

/-- The `findByIdAndUpdate(id, updateData)` write: every field present in
the payload overwrites the stored field ($set semantics; no pre-save hook
runs on this path; timestamp bookkeeping is elided). -/
def applySet (u : UpdatePayload) (p : Product) : Product :=
  { name := optSet u.name p.name
    currentPrice := optSet u.currentPrice p.currentPrice
    originalPrice := optSetOpt u.originalPrice p.originalPrice
    stock := optSet u.stock p.stock
    isBidding := optSet u.isBidding p.isBidding
    biddingEndTime := optSetOpt u.biddingEndTime p.biddingEndTime
    biddingDurationDays := optSetOpt u.biddingDurationDays p.biddingDurationDays
    bestBidder := optSetOpt u.bestBidder p.bestBidder
    bestBidderEmail := optSetOpt u.bestBidderEmail p.bestBidderEmail
    bidHistory := optSet u.bidHistory p.bidHistory
    biddingStatus := optSet u.biddingStatus p.biddingStatus
    winnerNotified := optSet u.winnerNotified p.winnerNotified
    reservedForWinner := optSet u.reservedForWinner p.reservedForWinner
    minimumBidIncrement := optSet u.minimumBidIncrement p.minimumBidIncrement
    userId := optSet u.userId p.userId
    userEmail := optSet u.userEmail p.userEmail
    createdAt := optSet u.createdAt p.createdAt
    updatedAt := p.updatedAt }

/-- The update route of products.js (423-472) on a found product: it
deletes only _id, createdAt and bestBidder from the payload before the
store write. -/
def putUpdate (u : UpdatePayload) (p : Product) : Product :=
  applySet { u with bestBidder := none, createdAt := none } p

/-- The authenticated update route of part_004 (437-524) on a found product
the caller owns: it deletes _id, createdAt, bestBidder, userId and
userEmail from the payload, and additionally deletes currentPrice,
originalPrice, minimumBidIncrement, biddingDurationDays, biddingEndTime and
isBidding when the record is auction-enabled with status "active" and a
nonempty bid history. -/
def putUpdateAuth (u : UpdatePayload) (p : Product) : Product :=
  let u1 : UpdatePayload :=
    { u with bestBidder := none, createdAt := none, userId := none, userEmail := none }
  let u2 : UpdatePayload :=
    if p.isBidding && p.biddingStatus == "active" && decide (0 < p.bidHistory.length) then
      { u1 with
        currentPrice := none
        originalPrice := none
        minimumBidIncrement := none
        biddingDurationDays := none
        biddingEndTime := none
        isBidding := none }
    else u1
  applySet u2 p

/-- The instance-method names productSchema defines (Product.js 245-310):
canBid, placeBid, isBiddingEnded, getWinner, reserveForWinner.  No
isBiddingActive method exists anywhere in the schema. -/
def productSchemaMethods : List String :=
  ["canBid", "placeBid", "isBiddingEnded", "getWinner", "reserveForWinner"]

/-- The boolean-returning instance methods of the schema, as a dispatch
table for JS member-access-and-call.  Calling a name the schema does not
define is a TypeError. -/
def boolMethodTable (now : Int) : List (String × (Product → Bool)) :=
  [("canBid", canBid now), ("isBiddingEnded", isBiddingEnded now)]

/-- JS dynamic dispatch of a boolean instance method: when the name is not
defined on the schema the call throws
"product.<name> is not a function". -/
def callBoolMethod (now : Int) (name : String) (p : Product) : JsResult Bool :=
  match (boolMethodTable now).lookup name with
  | some f => .value (f p)
  | none => .thrown ("product." ++ name ++ " is not a function")

/-- The responses of the delete route (products.js 740-777) on a found
product: blocked while bidding is active, deleted, or the 500 answer of the
outer catch. -/
inductive DeleteOutcome where
  | blockedActiveBidding
  | deleted
  | serverError (msg : String)
  deriving DecidableEq

/-- The delete route handler (products.js 740-777) on a found product: it
calls `product.isBiddingActive()` to guard the deletion; a throw of that
call is caught and answered as a 500 server error. -/
def deleteRoute (now : Int) (p : Product) : DeleteOutcome :=
  match callBoolMethod now ("isBiddingActive") p with
  | .thrown msg => .serverError msg
  | .value true => .blockedActiveBidding
  | .value false => .deleted

/-- A concrete active auction used as a test vehicle: currentPrice 100,
minimumBidIncrement 10, empty history, end time 1000 (in the future of
now = 0). -/
def sampleAuction : Product :=
  { name := "Vintage Guitar"
    currentPrice := 100
    originalPrice := some 100
    stock := 1
    isBidding := true
    biddingEndTime := some 1000
    biddingDurationDays := some 7
    bestBidder := none
    bestBidderEmail := none
    bidHistory := []
    biddingStatus := "active"
    winnerNotified := false
    reservedForWinner := false
    minimumBidIncrement := 10
    userId := "u1"
    userEmail := "owner@example.com"
    createdAt := 0
    updatedAt := 0 }

/-- The sample auction after one accepted bid of 110 by Ana. -/
def sampleBidded : Product :=
  { sampleAuction with
    currentPrice := 110
    bestBidder := some ("Ana")
    bestBidderEmail := some ("ana@example.com")
    bidHistory := [⟨"Ana", "ana@example.com", 110, 5⟩] }

/-- The sample auction once resolved: status ended, reserved for Ana. -/
def sampleEnded : Product :=
  { sampleBidded with biddingStatus := "ended", reservedForWinner := true }

/-- A regular (non-auction) listing: isBidding false, and therefore
biddingStatus "sold" by the schema default. -/
def regularProduct : Product :=
  { name := "iPhone 15 Pro"
    currentPrice := 999
    originalPrice := some 999
    stock := 5
    isBidding := false
    biddingEndTime := none
    biddingDurationDays := none
    bestBidder := none
    bestBidderEmail := none
    bidHistory := []
    biddingStatus := "sold"
    winnerNotified := false
    reservedForWinner := false
    minimumBidIncrement := 1
    userId := "u2"
    userEmail := "own@x.com"
    createdAt := 0
    updatedAt := 0 }

/-- The sample auction with the (schema-invalid) status "reserved" the
specification speaks about. -/
def reservedStatusAuction : Product :=
  { sampleAuction with biddingStatus := "reserved" }

/-- An expired won auction (end time 1000, queried at now = 2000). -/
def wonAuction : Product := sampleBidded

/-- The record reserveForWinner produces from the expired won auction:
status "ended", reservedForWinner true, winnerNotified still false. -/
def reservedByJob : Product :=
  { wonAuction with reservedForWinner := true, biddingStatus := "ended" }

/-- Expired won auction named A (winner Ana). -/
def auctionA : Product :=
  { sampleBidded with name := "A" }

/-- Expired won auction named B (winner Ben). -/
def auctionB : Product :=
  { sampleAuction with
    name := "B"
    currentPrice := 120
    bestBidder := some ("Ben")
    bestBidderEmail := some ("ben@example.com")
    bidHistory := [⟨"Ben", "ben@example.com", 120, 6⟩] }

/-- A store oracle that fails the write of product A only. -/
def crashySave : Product → Option String :=
  fun p => if p.name == "A" then some ("store write failed") else none

/-- A patch that tries to overwrite the best bidder email. -/
def emailPatch : UpdatePayload :=
  { bestBidderEmail := some (some ("evil@example.com")) }

/-- A patch that tries to raise the current price directly. -/
def pricePatch : UpdatePayload :=
  { currentPrice := some 999 }

/-- Shape of placeBid once the canBid guard has passed: only the minimum
test remains. -/
theorem placeBid_of_canBid (now : Int) (p : Product) (b e : String) (a : ℚ)
    (h : canBid now p = true) :
    placeBid now p b e a =
      if a < p.currentPrice + p.minimumBidIncrement then
        .failure (.tooLow (p.currentPrice + p.minimumBidIncrement))
      else
        .success { p with
          bidHistory := p.bidHistory ++ [⟨b, e, a, now⟩]
          currentPrice := a
          bestBidder := some b
          bestBidderEmail := some e } := by
  simp [placeBid, h]

/-- Minimum acceptable bid of the sample auction. -/
theorem sample_min_eq :
    sampleAuction.currentPrice + sampleAuction.minimumBidIncrement = 110 := by
  norm_num [sampleAuction]

/-- C1: for every record on which bidding is currently allowed (canBid) and
every bid amount, placeBid fails with the low-bid error exactly when the
amount is below currentPrice + minimumBidIncrement; the error reports that
minimum acceptable value, and on this failure the record is left
unchanged. -/
theorem placeBid_rejects_low_bids (now : Int) (p : Product) (b e : String) (a : ℚ)
    (h : canBid now p = true) :
    (placeBid now p b e a
        = .failure (.tooLow (p.currentPrice + p.minimumBidIncrement))
      ↔ a < p.currentPrice + p.minimumBidIncrement)
    ∧ (∀ m : ℚ, placeBid now p b e a = .failure (.tooLow m) →
        m = p.currentPrice + p.minimumBidIncrement)
    ∧ (a < p.currentPrice + p.minimumBidIncrement → placeBidResult now p b e a = p) := by
  have hp := placeBid_of_canBid now p b e a h
  by_cases hlt : a < p.currentPrice + p.minimumBidIncrement
  · rw [hp, if_pos hlt]
    refine ⟨⟨fun _ => hlt, fun _ => rfl⟩, ?_, ?_⟩
    · intro m hm
      injection hm with h1
      injection h1 with h2
      exact h2.symm
    · intro _
      unfold placeBidResult
      rw [hp, if_pos hlt]
  · rw [hp, if_neg hlt]
    refine ⟨?_, ?_, ?_⟩
    · simp [hlt]
    · intro m hm
      exact absurd hm (by simp)
    · intro hc
      exact absurd hc hlt

/-- Witness for C1 at a concrete input: bidding is allowed on the sample
auction, and a 105 bid is the low-bid rejection iff 105 is below the
reported minimum. -/
theorem placeBid_rejects_low_bids_witness :
    canBid 0 sampleAuction = true
    ∧ (placeBid 0 sampleAuction ("Ana") ("ana@example.com") 105
        = .failure (.tooLow
            (sampleAuction.currentPrice + sampleAuction.minimumBidIncrement))
      ↔ (105 : ℚ) < sampleAuction.currentPrice + sampleAuction.minimumBidIncrement) :=
  ⟨by decide,
    (placeBid_rejects_low_bids 0 sampleAuction ("Ana") ("ana@example.com") 105 (by decide)).1⟩

/-- C2: on a record where bidding is allowed, a bid meeting the minimum
succeeds and its entire effect is appending one history entry, raising
currentPrice to the amount and recording the bidder name and email; in
particular on the sample auction (price 100, increment 10) a bid of 105 is
rejected with minimum 110 while a bid of 110 is accepted, yielding
currentPrice 110 and bid count 1 from an empty history. -/
theorem placeBid_success_effect (now : Int) (p : Product) (b e : String) (a : ℚ)
    (h : canBid now p = true) (hge : p.currentPrice + p.minimumBidIncrement ≤ a) :
    placeBid now p b e a = .success { p with
        bidHistory := p.bidHistory ++ [⟨b, e, a, now⟩]
        currentPrice := a
        bestBidder := some b
        bestBidderEmail := some e }
    ∧ (placeBidResult now p b e a).bidHistory.length = p.bidHistory.length + 1
    ∧ placeBid 0 sampleAuction ("Ana") ("ana@example.com") 105 = .failure (.tooLow 110)
    ∧ (placeBidResult 0 sampleAuction ("Ana") ("ana@example.com") 110).currentPrice = 110
    ∧ (placeBidResult 0 sampleAuction ("Ana") ("ana@example.com") 110).bidHistory.length = 1
    ∧ (placeBidResult 0 sampleAuction ("Ana") ("ana@example.com") 110).bestBidder
        = some ("Ana") := by
  have hp := placeBid_of_canBid now p b e a h
  have hnl : ¬(a < p.currentPrice + p.minimumBidIncrement) := not_lt.mpr hge
  have h105 := placeBid_of_canBid 0 sampleAuction ("Ana") ("ana@example.com") 105 (by decide)
  have h110 := placeBid_of_canBid 0 sampleAuction ("Ana") ("ana@example.com") 110 (by decide)
  refine ⟨by rw [hp, if_neg hnl], ?_, ?_, ?_, ?_, ?_⟩
  · unfold placeBidResult
    rw [hp, if_neg hnl]
    simp
  · rw [h105, sample_min_eq, if_pos (by norm_num : (105 : ℚ) < 110)]
  · unfold placeBidResult
    rw [h110, sample_min_eq, if_neg (by norm_num : ¬((110 : ℚ) < 110))]
  · unfold placeBidResult
    rw [h110, sample_min_eq, if_neg (by norm_num : ¬((110 : ℚ) < 110))]
    rfl
  · unfold placeBidResult
    rw [h110, sample_min_eq, if_neg (by norm_num : ¬((110 : ℚ) < 110))]

/-- Witness for C2 at a concrete input: bidding is allowed on the sample
auction, the minimum is met by a bid of 110, and the accepted bid has
exactly the claimed effect. -/
theorem placeBid_success_effect_witness :
    canBid 0 sampleAuction = true
    ∧ sampleAuction.currentPrice + sampleAuction.minimumBidIncrement ≤ 110
    ∧ placeBid 0 sampleAuction ("Ana") ("ana@example.com") 110 = .success { sampleAuction with
        bidHistory := sampleAuction.bidHistory ++ [⟨"Ana", "ana@example.com", 110, 0⟩]
        currentPrice := 110
        bestBidder := some ("Ana")
        bestBidderEmail := some ("ana@example.com") } :=
  ⟨by decide, le_of_eq sample_min_eq,
    (placeBid_success_effect 0 sampleAuction ("Ana") ("ana@example.com") 110 (by decide)
      (le_of_eq sample_min_eq)).1⟩

/-- Fields of a successful placeBid result: the new price is the bid
amount, the amount met the minimum, and the increment is unchanged. -/
theorem placeBid_success_fields (now : Int) (p : Product) (b e : String) (a : ℚ)
    (q : Product) (h : placeBid now p b e a = .success q) :
    q.currentPrice = a ∧ p.currentPrice + p.minimumBidIncrement ≤ a
    ∧ q.minimumBidIncrement = p.minimumBidIncrement := by
  unfold placeBid at h
  split_ifs at h with h1 h2
  injection h with h3
  subst h3
  exact ⟨rfl, not_lt.mp h2, rfl⟩

/-- One placeBid attempt never lowers the current price when the increment
is positive. -/
theorem placeBidResult_price_mono (now : Int) (p : Product) (b e : String) (a : ℚ)
    (h : 0 < p.minimumBidIncrement) :
    p.currentPrice ≤ (placeBidResult now p b e a).currentPrice := by
  unfold placeBidResult
  cases hpb : placeBid now p b e a with
  | failure err => exact le_rfl
  | success q =>
    obtain ⟨hq1, hq2, _⟩ := placeBid_success_fields now p b e a q hpb
    show p.currentPrice ≤ q.currentPrice
    calc p.currentPrice ≤ p.currentPrice + p.minimumBidIncrement :=
          le_add_of_nonneg_right h.le
      _ ≤ a := hq2
      _ = q.currentPrice := hq1.symm

/-- A placeBid attempt never changes the minimum increment. -/
theorem placeBidResult_inc (now : Int) (p : Product) (b e : String) (a : ℚ) :
    (placeBidResult now p b e a).minimumBidIncrement = p.minimumBidIncrement := by
  unfold placeBidResult
  cases hpb : placeBid now p b e a with
  | failure err => rfl
  | success q => exact (placeBid_success_fields now p b e a q hpb).2.2

/-- A sequence of bid attempts never lowers the current price when the
increment is positive. -/
theorem applyBids_price_mono (now : Int) (bids : List (String × String × ℚ)) :
    ∀ p : Product, 0 < p.minimumBidIncrement →
      p.currentPrice ≤ (applyBids now bids p).currentPrice := by
  induction bids with
  | nil => exact fun p _ => le_rfl
  | cons b rest ih =>
    intro p h
    have h2 : 0 < (placeBidResult now p b.1 b.2.1 b.2.2).minimumBidIncrement := by
      rw [placeBidResult_inc]
      exact h
    exact le_trans (placeBidResult_price_mono now p b.1 b.2.1 b.2.2 h) (ih _ h2)

/-- The auto-end step of the pre-save hook never touches the price. -/
theorem presaveAutoEnd_currentPrice (now : Int) (p : Product) :
    (presaveAutoEnd now p).currentPrice = p.currentPrice := by
  unfold presaveAutoEnd
  cases hd : p.biddingDurationDays with
  | none => rfl
  | some d =>
    dsimp only
    split_ifs <;> rfl

/-- The expiry step of the pre-save hook never touches the price. -/
theorem presaveExpire_currentPrice (now : Int) (p : Product) :
    (presaveExpire now p).currentPrice = p.currentPrice := by
  unfold presaveExpire
  split_ifs <;> rfl

/-- The whole pre-save hook never touches the price. -/
theorem resolve_currentPrice (now : Int) (p : Product) :
    (resolve now p).currentPrice = p.currentPrice := by
  unfold resolve
  rw [presaveExpire_currentPrice, presaveAutoEnd_currentPrice]

/-- A successful reserveForWinner never touches the price. -/
theorem reserveForWinner_value_currentPrice (now : Int) (p q : Product)
    (h : reserveForWinner now p = .value q) : q.currentPrice = p.currentPrice := by
  unfold reserveForWinner at h
  split_ifs at h
  injection h with h1
  subst h1
  rfl

/-- C3 (amended): currentPrice never decreases across a sequence of bid
attempts when the minimum increment is positive (each accepted bid leaves
it at or above its prior value), and none of the auction-lifecycle
operations — the pre-save resolve step, reserveForWinner, the notification
flagging — changes currentPrice.  (As stated the claim is refuted by the
update route, which can raise currentPrice of an active record directly:
see the counterexample.) -/
theorem currentPrice_monotone_for_bids :
    (∀ (now : Int) (p : Product) (b e : String) (a : ℚ),
        0 < p.minimumBidIncrement →
        p.currentPrice ≤ (placeBidResult now p b e a).currentPrice)
    ∧ (∀ (now : Int) (bids : List (String × String × ℚ)) (p : Product),
        0 < p.minimumBidIncrement →
        p.currentPrice ≤ (applyBids now bids p).currentPrice)
    ∧ (∀ (now : Int) (p : Product), (resolve now p).currentPrice = p.currentPrice)
    ∧ (∀ (now : Int) (p q : Product),
        reserveForWinner now p = .value q → q.currentPrice = p.currentPrice)
    ∧ (∀ p : Product, (notifyStep p).currentPrice = p.currentPrice) :=
  ⟨placeBidResult_price_mono,
    fun now bids p h => applyBids_price_mono now bids p h,
    resolve_currentPrice,
    reserveForWinner_value_currentPrice,
    fun _ => rfl⟩

/-- Witness for C3 at a concrete input: the sample auction has a positive
increment and a one-bid sequence never lowers its price. -/
theorem currentPrice_monotone_for_bids_witness :
    0 < sampleAuction.minimumBidIncrement
    ∧ sampleAuction.currentPrice
        ≤ (applyBids 0 [("Ana", "ana@example.com", 110)] sampleAuction).currentPrice :=
  ⟨by decide,
    currentPrice_monotone_for_bids.2.1 0 [("Ana", "ana@example.com", 110)] sampleAuction
      (by decide)⟩

/-- Counterexample to C3 as stated: the update route of products.js is an
operation other than an accepted bid, yet a patch payload raises
currentPrice of an active record that already has bids (the route strips
only bestBidder, so currentPrice passes straight through to the store
write). -/
theorem update_can_raise_price_of_active :
    sampleBidded.biddingStatus = "active"
    ∧ sampleBidded.bidHistory ≠ []
    ∧ (putUpdate pricePatch sampleBidded).biddingStatus = "active"
    ∧ sampleBidded.currentPrice < (putUpdate pricePatch sampleBidded).currentPrice := by
  refine ⟨rfl, by decide, rfl, ?_⟩
  show (110 : ℚ) < 999
  norm_num

/-- The auto-end step never changes the status. -/
theorem presaveAutoEnd_biddingStatus (now : Int) (p : Product) :
    (presaveAutoEnd now p).biddingStatus = p.biddingStatus := by
  unfold presaveAutoEnd
  cases hd : p.biddingDurationDays with
  | none => rfl
  | some d =>
    dsimp only
    split_ifs <;> rfl

/-- The auto-end step never changes the bidding fields of the idempotence
claim (it only writes biddingEndTime). -/
theorem presaveAutoEnd_resolvedView (now : Int) (p : Product) :
    resolvedView (presaveAutoEnd now p) = resolvedView p := by
  unfold presaveAutoEnd
  cases hd : p.biddingDurationDays with
  | none => rfl
  | some d =>
    dsimp only
    split_ifs <;> rfl

/-- The expiry step is the identity on a record whose status is not
"active". -/
theorem presaveExpire_of_nonactive (now : Int) (p : Product)
    (h : (p.biddingStatus == "active") = false) :
    presaveExpire now p = p := by
  unfold presaveExpire
  split_ifs <;> simp_all

/-- The whole pre-save hook preserves the bidding fields of a record whose
status is not "active". -/
theorem resolve_nonactive_view (now : Int) (p : Product)
    (h : (p.biddingStatus == "active") = false) :
    resolvedView (resolve now p) = resolvedView p := by
  unfold resolve
  have hst : ((presaveAutoEnd now { p with updatedAt := now }).biddingStatus
      == "active") = false := by
    rw [presaveAutoEnd_biddingStatus]
    exact h
  rw [presaveExpire_of_nonactive now _ hst]
  exact presaveAutoEnd_resolvedView now _

/-- The whole pre-save hook preserves the status of a record whose status
is not "active". -/
theorem resolve_nonactive_status (now : Int) (p : Product)
    (h : (p.biddingStatus == "active") = false) :
    (resolve now p).biddingStatus = p.biddingStatus :=
  congrArg Prod.fst (resolve_nonactive_view now p h)

/-- C4: the pre-save resolve step is idempotent on already-resolved
records: on a record whose status is "ended" or "reserved" it is a no-op on
the bidding fields (biddingStatus, reservedForWinner, bestBidder,
currentPrice, bidHistory), and applying it twice yields the same bidding
fields as applying it once. -/
theorem resolve_idempotent_on_resolved (now1 now2 : Int) (p : Product)
    (h : p.biddingStatus = "ended" ∨ p.biddingStatus = "reserved") :
    resolvedView (resolve now1 p) = resolvedView p
    ∧ resolvedView (resolve now2 (resolve now1 p)) = resolvedView (resolve now1 p) := by
  have hb : (p.biddingStatus == "active") = false := by
    rcases h with h | h <;> rw [h] <;> rfl
  have h1 := resolve_nonactive_view now1 p hb
  have hs : ((resolve now1 p).biddingStatus == "active") = false := by
    rw [resolve_nonactive_status now1 p hb]
    exact hb
  exact ⟨h1, resolve_nonactive_view now2 _ hs⟩

/-- Witness for C4 at a concrete input: the sample ended record is already
resolved, and one and two applications of the resolve step agree on the
bidding fields. -/
theorem resolve_idempotent_on_resolved_witness :
    (sampleEnded.biddingStatus = "ended" ∨ sampleEnded.biddingStatus = "reserved")
    ∧ resolvedView (resolve 9999 sampleEnded) = resolvedView sampleEnded
    ∧ resolvedView (resolve 8888 (resolve 9999 sampleEnded))
        = resolvedView (resolve 9999 sampleEnded) :=
  ⟨Or.inl rfl,
    (resolve_idempotent_on_resolved 9999 8888 sampleEnded (Or.inl rfl)).1,
    (resolve_idempotent_on_resolved 9999 8888 sampleEnded (Or.inl rfl)).2⟩

/-- C5 (code bug): the record the Settlement Job reserves for a winner has
status "ended" with reservedForWinner set and winnerNotified still false,
but the Notification Stage query of notifyWinners matches only
biddingStatus "reserved" — a value reserveForWinner never writes and the
schema enum does not even contain — so the sweep selects nothing, notifies
zero records and leaves the winner unnotified, contrary to the claim. -/
theorem notifyWinners_misses_settled_winner :
    reserveForWinner 2000 wonAuction = .value reservedByJob
    ∧ reservedByJob.reservedForWinner = true
    ∧ reservedByJob.biddingStatus = "ended"
    ∧ reservedByJob.winnerNotified = false
    ∧ notifySelects [reservedByJob] = []
    ∧ notifyWinners 3000 [reservedByJob] = ([reservedByJob], 0) := by decide

/-- C6 (amended): in the scheduler's processExpiredBiddings, each record's
contribution to the failed and processed summary lists depends only on its
own settlement outcome — a per-record throw is recorded in the failed list
with its message and does not remove any other record of the expired set
from the summary — and the final store covers every record, the batch
being a total function that never rethrows a per-record error. -/
theorem processExpired_isolates_failures (now : Int)
    (saveErr : Product → Option String) (db : List Product) :
    (processExpiredBiddings now saveErr db).1.failed
      = (db.filter (fun p => isExpiredActive now p
            && isThrown (settleRecord now saveErr p))).map
          (fun p => ⟨p.name, thrownMsg (settleRecord now saveErr p)⟩)
    ∧ (processExpiredBiddings now saveErr db).1.processed
      = (db.filter (fun p => isExpiredActive now p && strTruthy p.bestBidder
            && !isThrown (settleRecord now saveErr p))).map
          (settledWinnerEntry now saveErr)
    ∧ ((processExpiredBiddings now saveErr db).2).length = db.length := by
  induction db with
  | nil => exact ⟨rfl, rfl, rfl⟩
  | cons p rest ih =>
    obtain ⟨ih1, ih2, ih3⟩ := ih
    cases he : isExpiredActive now p with
    | false =>
      simp [processExpiredBiddings, he, List.filter_cons, ih1, ih2, ih3]
    | true =>
      cases hs : settleRecord now saveErr p with
      | thrown e =>
        simp [processExpiredBiddings, he, hs, List.filter_cons, isThrown,
          thrownMsg, ih1, ih2, ih3]
      | value q =>
        cases hb : strTruthy p.bestBidder with
        | false =>
          simp [processExpiredBiddings, he, hs, hb, List.filter_cons, isThrown,
            thrownMsg, ih1, ih2, ih3]
        | true =>
          simp [processExpiredBiddings, he, hs, hb, List.filter_cons, isThrown,
            thrownMsg, settledWinnerEntry, ih1, ih2, ih3]

/-- Counterexample to C6 as stated: over the expired set [A, B] with a
store that fails the write of A, the process-ended route's batch (the
claim's cited process-ended handler) throws the per-record error to its
caller and leaves B unprocessed — while the scheduler run on the same
input records A in the failure list and still processes B. -/
theorem processEnded_route_aborts_on_failure :
    findEndedBiddings 2000 [auctionA, auctionB] = [auctionA, auctionB]
    ∧ processEndedRoute 2000 crashySave [auctionA, auctionB]
        = .thrown ("store write failed")
    ∧ ((processExpiredBiddings 2000 crashySave [auctionA, auctionB]).1.failed).map
        (fun f => f.productName) = ["A"]
    ∧ ((processExpiredBiddings 2000 crashySave [auctionA, auctionB]).1.processed).map
        (fun w => w.productName) = ["B"] := by decide

/-- Counterexample to C7 as stated: a regular sold listing satisfies the
specification's status clause (sold is in the claimed set) yet
isBiddingEnded answers false because the method first requires isBidding;
likewise a record carrying the status "reserved" the claim singles out is
not recognised by the method. -/
theorem isBiddingEnded_spec_mismatch :
    specIsBiddingEnded 0 regularProduct = true
    ∧ isBiddingEnded 0 regularProduct = false
    ∧ reservedStatusAuction.biddingStatus = "reserved"
    ∧ specIsBiddingEnded 0 reservedStatusAuction = true
    ∧ isBiddingEnded 0 reservedStatusAuction = false := by decide

/-- C7 (amended): isBiddingEnded returns true exactly when the record is
auction-enabled and either its status is "ended" or "sold" or its end
timestamp has been reached; a non-auction record always yields false, and
the status "reserved" is not recognised. -/
theorem isBiddingEnded_characterization (now : Int) (p : Product) :
    isBiddingEnded now p
      = (p.isBidding && (p.biddingStatus == "ended" || p.biddingStatus == "sold"
          || dateReached now p.biddingEndTime)) := by
  unfold isBiddingEnded
  cases hb : p.isBidding <;> cases h1 : p.biddingStatus == "ended" <;>
    cases h2 : p.biddingStatus == "sold" <;>
    cases h3 : dateReached now p.biddingEndTime <;>
      simp [hb, h1, h2, h3]

/-- Evaluation of the bid route once input validation has passed: the
self-bid check comes first, then the canBid split, then the minimum test. -/
theorem routeBid_eval (now : Int) (p : Product) (b e : String) (a : ℚ)
    (hv : bidValidationOk b e a = true) :
    routeBid now p b e a =
      if p.userEmail == e then .selfBidForbidden
      else if !canBid now p then
        (if timeRemainingExpired now p then .auctionClosed else .notBiddable)
      else if a < p.currentPrice + p.minimumBidIncrement then
        .bidRejected (p.currentPrice + p.minimumBidIncrement)
      else .accepted (resolve now { p with
        bidHistory := p.bidHistory ++ [⟨jsTrim b, jsTrim e, a, now⟩]
        currentPrice := a
        bestBidder := some (jsTrim b)
        bestBidderEmail := some (jsTrim e) }) := by
  unfold routeBid
  simp only [hv, Bool.not_true, Bool.false_eq_true, if_false]
  cases he : p.userEmail == e with
  | true => simp [he]
  | false =>
    cases hc : canBid now p with
    | false => simp [he, hc]
    | true =>
      rw [placeBid_of_canBid now p (jsTrim b) (jsTrim e) a hc]
      by_cases hlt : a < p.currentPrice + p.minimumBidIncrement <;>
        simp [he, hc, hlt]

/-- C8 (amended): after input validation the bid route checks the owner
self-bid first — so a self-bid on a record that is not biddable fails as
SelfBidForbidden, not NotBiddable — then answers AuctionClosed or
NotBiddable according to the expiry view when bidding is closed, and only
then rejects a low bid with the reported minimum. -/
theorem routeBid_checks_selfBid_first (now : Int) (p : Product) (b e : String) (a : ℚ)
    (hv : bidValidationOk b e a = true) :
    (routeBid now p b e a = .selfBidForbidden ↔ p.userEmail = e)
    ∧ ((p.userEmail == e) = false → canBid now p = false →
        routeBid now p b e a =
          (if timeRemainingExpired now p then .auctionClosed else .notBiddable))
    ∧ ((p.userEmail == e) = false → canBid now p = true →
        (routeBid now p b e a = .bidRejected (p.currentPrice + p.minimumBidIncrement)
          ↔ a < p.currentPrice + p.minimumBidIncrement)) := by
  have hr := routeBid_eval now p b e a hv
  refine ⟨?_, ?_, ?_⟩
  · cases he : p.userEmail == e with
    | true =>
      rw [hr]
      simp [he]
      exact eq_of_beq he
    | false =>
      have hne : ¬(p.userEmail = e) := fun hq => by simp [hq] at he
      rw [hr]
      simp [he, hne]
      split_ifs <;> simp
  · intro he hc
    rw [hr]
    simp [he, hc]
  · intro he hc
    rw [hr]
    simp [he, hc]

/-- Witness for C8 at a concrete input: valid inputs, a non-owner bidder on
the open sample auction, and the low-bid iff at amount 105. -/
theorem routeBid_checks_selfBid_first_witness :
    bidValidationOk ("Ana") ("ana@example.com") 105 = true
    ∧ (sampleAuction.userEmail == "ana@example.com") = false
    ∧ canBid 0 sampleAuction = true
    ∧ (routeBid 0 sampleAuction ("Ana") ("ana@example.com") 105
        = .bidRejected (sampleAuction.currentPrice + sampleAuction.minimumBidIncrement)
      ↔ (105 : ℚ) < sampleAuction.currentPrice + sampleAuction.minimumBidIncrement) :=
  ⟨by decide, by decide, by decide,
    (routeBid_checks_selfBid_first 0 sampleAuction ("Ana") ("ana@example.com") 105
      (by decide)).2.2 (by decide) (by decide)⟩

/-- Counterexample to C8 as stated: the owner bids on their own regular
(non-biddable) product; the claim says the first-listed violated
precondition NotBiddable is reported, but the route answers
SelfBidForbidden because the self-bid check precedes biddability. -/
theorem selfBid_beats_notBiddable :
    canBid 0 regularProduct = false
    ∧ bidValidationOk ("Eve") ("own@x.com") 50 = true
    ∧ regularProduct.userEmail = "own@x.com"
    ∧ routeBid 0 regularProduct ("Eve") ("own@x.com") 50 = .selfBidForbidden := by
  decide

/-- Counterexample to C9 as stated: on a record with one bid, a patch
carrying bestBidderEmail passes through both update routes unstripped and
overwrites the bid-controlled field. -/
theorem updateEndpoint_leaks_bestBidderEmail :
    sampleBidded.bidHistory ≠ []
    ∧ sampleBidded.bestBidderEmail = some ("ana@example.com")
    ∧ (putUpdateAuth emailPatch sampleBidded).bestBidderEmail
        = some ("evil@example.com")
    ∧ (putUpdate emailPatch sampleBidded).bestBidderEmail
        = some ("evil@example.com") := by decide

/-- C9 (amended): the update routes strip only bestBidder from every patch
(part_004 also userId/userEmail), and the part_004 route freezes
currentPrice, originalPrice, minimumBidIncrement, biddingDurationDays,
biddingEndTime and isBidding exactly when the record is auction-enabled
with status "active" and a nonempty bid history; bestBidderEmail and
bidHistory are never stripped and remain patchable. -/
theorem update_strips_bestBidder_and_freezes_price_fields
    (u : UpdatePayload) (p : Product) :
    (putUpdate u p).bestBidder = p.bestBidder
    ∧ (putUpdateAuth u p).bestBidder = p.bestBidder
    ∧ (p.isBidding = true → p.biddingStatus = "active" → p.bidHistory ≠ [] →
        (putUpdateAuth u p).currentPrice = p.currentPrice
        ∧ (putUpdateAuth u p).originalPrice = p.originalPrice
        ∧ (putUpdateAuth u p).minimumBidIncrement = p.minimumBidIncrement
        ∧ (putUpdateAuth u p).biddingDurationDays = p.biddingDurationDays
        ∧ (putUpdateAuth u p).biddingEndTime = p.biddingEndTime
        ∧ (putUpdateAuth u p).isBidding = p.isBidding) := by
  refine ⟨rfl, ?_, ?_⟩
  · unfold putUpdateAuth
    split_ifs <;> rfl
  · intro hb hs hh
    have hcond : (p.isBidding && p.biddingStatus == "active"
        && decide (0 < p.bidHistory.length)) = true := by
      simp [hb, hs, List.length_pos, hh]
    simp only [putUpdateAuth]
    rw [if_pos hcond]
    exact ⟨rfl, rfl, rfl, rfl, rfl, rfl⟩

/-- Witness for C9 at a concrete input: the bidded sample record is
auction-enabled, active and has a bid, and a direct price patch through the
part_004 route leaves its current price unchanged. -/
theorem update_strips_bestBidder_and_freezes_price_fields_witness :
    sampleBidded.isBidding = true
    ∧ sampleBidded.biddingStatus = "active"
    ∧ sampleBidded.bidHistory ≠ []
    ∧ (putUpdateAuth pricePatch sampleBidded).currentPrice
        = sampleBidded.currentPrice :=
  ⟨rfl, rfl, by decide,
    ((update_strips_bestBidder_and_freezes_price_fields pricePatch sampleBidded).2.2
      rfl rfl (by decide)).1⟩

/-- C10: the product schema never defines an isBiddingActive method, so the
delete route's call to it throws a TypeError on every found product; the
handler answers the 500 branch and the deletion branch is unreachable — no
record is ever deleted through this endpoint. -/
theorem deleteRoute_never_deletes (now : Int) (p : Product) :
    productSchemaMethods.contains ("isBiddingActive") = false
    ∧ deleteRoute now p = .serverError ("product.isBiddingActive is not a function")
    ∧ deleteRoute now p ≠ .deleted := by
  have h1 : deleteRoute now p
      = .serverError ("product.isBiddingActive is not a function") := rfl
  refine ⟨by decide, h1, ?_⟩
  rw [h1]
  simp

end KuPro
